import Mathlib

/-!
Shallow embedding of the `antropic_client_rs` crate (files
`src/client/mod.rs` and `src/client/models.rs`): the typed data model, its
serde JSON encoding and decoding, and the client's request construction and
response handling, together with proofs about them.

JSON is modelled as an inductive `Json` tree; JSON numbers carry exact
rational values (serde_json prints a shortest decimal that parses back to
the same float, so for round-trip purposes the emitted number denotes the
float's value exactly).  Rust `f32` is modelled by `F32`: finite values
carry their exact rational value, and the non-finite values are separate
constructors because serde_json serializes NaN and the infinities as JSON
`null`.  Rust `i32` is modelled as `Int` together with the `isI32` range
predicate.  Serde's derived struct deserializer reads named fields from a
JSON object and ignores unknown fields; that is modelled by first-match
association lookup.  `Option` fields follow serde: a missing or `null`
field decodes to `none`, and `none` serializes as `null` (the Rust structs
use no `skip_serializing_if`).
-/

namespace AnthropicRs

/-- JSON values: the shapes serde_json reads and writes. -/
inductive Json where
  | str (s : String)
  | num (q : Rat)
  | bool (b : Bool)
  | null
  | arr (xs : List Json)
  | obj (fields : List (String × Json))

/-- First-match lookup of a field in a JSON object's field list: serde's
derived deserializers read fields by name and ignore unknown fields. -/
def jsonLookup (fields : List (String × Json)) (key : String) : Option Json :=
  (fields.find? (fun f => f.1 == key)).map (fun f => f.2)

/-- Decode a JSON string (serde: deserializing `String`). -/
def decodeStr : Json → Option String
  | .str s => some s
  | _ => none

/-- Decode a JSON array into its element list. -/
def decodeArr : Json → Option (List Json)
  | .arr xs => some xs
  | _ => none

/-- Rust `i32` range, lower bound. -/
def i32Min : Int := -(2 ^ 31)

/-- Rust `i32` range, upper bound. -/
def i32Max : Int := 2 ^ 31 - 1

/-- The integer is representable as a Rust `i32`. -/
def isI32 (n : Int) : Prop := i32Min ≤ n ∧ n ≤ i32Max

instance (n : Int) : Decidable (isI32 n) := by
  unfold isI32; infer_instance

/-- Decode a Rust `i32` from JSON: an integral number in `i32` range
(serde_json rejects non-integral numbers and out-of-range values for
`i32`). -/
def decodeI32 (j : Json) : Option Int :=
  match j with
  | .num q => if q.den = 1 ∧ isI32 q.num then some q.num else none
  | _ => none

/-- Model of Rust `f32` as serialized by serde_json: finite values carry
their exact rational value; serde_json writes NaN and the two infinities
as JSON `null`. -/
inductive F32 where
  | finite (q : Rat)
  | nan
  | inf
  | neginf

/-- serde_json serialization of an `f32`: non-finite floats become `null`. -/
def encodeF32 : F32 → Json
  | .finite q => .num q
  | .nan => .null
  | .inf => .null
  | .neginf => .null

/-- serde_json serialization of `Option<f32>`: `None` becomes `null`. -/
def encodeOptF32 : Option F32 → Json
  | some f => encodeF32 f
  | none => .null

/-- Decode an `Option<f32>` struct field per serde: a missing field or a
`null` gives `None`, a number gives `Some`, anything else is an error. -/
def decodeOptF32Field (fields : List (String × Json)) (key : String) :
    Option (Option F32) :=
  match jsonLookup fields key with
  | none => some none
  | some .null => some none
  | some (.num q) => some (some (.finite q))
  | some _ => none

/-- Decode an `Option<String>` struct field per serde: missing or `null`
gives `None`, a string gives `Some`. -/
def decodeOptStrField (fields : List (String × Json)) (key : String) :
    Option (Option String) :=
  match jsonLookup fields key with
  | none => some none
  | some .null => some none
  | some (.str s) => some (some s)
  | some _ => none

/-- Decode every element of a JSON array (serde sequences fail as a whole
when one element fails). -/
def decodeJsonList (d : Json → Option α) : List Json → Option (List α)
  | [] => some []
  | j :: js =>
    match d j, decodeJsonList d js with
    | some a, some as => some (a :: as)
    | _, _ => none

/-- the `MediaType` enum of `mod.rs`: serde renames give MIME strings. -/
inductive MediaType where
  | Jpeg
  | Png
  | Gif
  | Webp
deriving DecidableEq

/-- The serde rename of each `MediaType` variant. -/
def MediaType.mime : MediaType → String
  | .Jpeg => "image/jpeg"
  | .Png => "image/png"
  | .Gif => "image/gif"
  | .Webp => "image/webp"

/-- serde serialization of `MediaType`. -/
def encodeMediaType (m : MediaType) : Json := .str m.mime

/-- serde deserialization of `MediaType`: only the four renamed strings. -/
def decodeMediaType : Json → Option MediaType
  | .str "image/jpeg" => some .Jpeg
  | .str "image/png" => some .Png
  | .str "image/gif" => some .Gif
  | .str "image/webp" => some .Webp
  | _ => none

/-- the `Source` struct of `mod.rs`: `content_type` is a public `String`
field serde-renamed to `"type"`. -/
structure Source where
  content_type : String
  data : String
  media_type : MediaType
deriving DecidableEq

/-- Rust `Source::new` of `mod.rs`: hardcodes `content_type = "base64"`. -/
def Source.new (data : String) (media_type : MediaType) : Source :=
  ⟨"base64", data, media_type⟩

/-- serde serialization of `Source` (declaration field order; the first
field is renamed to `"type"`). -/
def encodeSource (s : Source) : Json :=
  .obj [("type", .str s.content_type), ("data", .str s.data),
        ("media_type", encodeMediaType s.media_type)]

/-- serde deserialization of `Source`. -/
def decodeSource (j : Json) : Option Source :=
  match j with
  | .obj fs =>
    match jsonLookup fs "type" with
    | some (.str ty) =>
      match jsonLookup fs "data" with
      | some (.str d) =>
        match (jsonLookup fs "media_type").bind decodeMediaType with
        | some m => some ⟨ty, d, m⟩
        | none => none
      | _ => none
    | _ => none
  | _ => none

/-- the `ContentText` struct of `mod.rs` (`content_type` is serde-renamed
to `"type"`). -/
structure ContentText where
  text : String
  content_type : String
deriving DecidableEq

/-- serde serialization of `ContentText`. -/
def encodeContentText (t : ContentText) : Json :=
  .obj [("text", .str t.text), ("type", .str t.content_type)]

/-- serde deserialization of `ContentText`: both fields are required. -/
def decodeContentText (j : Json) : Option ContentText :=
  match j with
  | .obj fs =>
    match jsonLookup fs "text" with
    | some (.str t) =>
      match jsonLookup fs "type" with
      | some (.str ty) => some ⟨t, ty⟩
      | _ => none
    | _ => none
  | _ => none

/-- the `ContentImage` struct of `mod.rs`. -/
structure ContentImage where
  source : Source
  content_type : String
deriving DecidableEq

/-- serde serialization of `ContentImage`. -/
def encodeContentImage (i : ContentImage) : Json :=
  .obj [("source", encodeSource i.source), ("type", .str i.content_type)]

/-- serde deserialization of `ContentImage`. -/
def decodeContentImage (j : Json) : Option ContentImage :=
  match j with
  | .obj fs =>
    match (jsonLookup fs "source").bind decodeSource with
    | some s =>
      match jsonLookup fs "type" with
      | some (.str ty) => some ⟨s, ty⟩
      | _ => none
    | none => none
  | _ => none

/-- the `ContentType` untagged enum of `mod.rs`: `Text` then `Image`, in
declaration order. -/
inductive ContentType where
  | Text (t : ContentText)
  | Image (i : ContentImage)
deriving DecidableEq

/-- Rust `ContentType::new_text` of `mod.rs`. -/
def ContentType.new_text (text : String) : ContentType :=
  .Text ⟨text, "text"⟩

/-- Rust `ContentType::new_image` of `mod.rs`. -/
def ContentType.new_image (source : Source) : ContentType :=
  .Image ⟨source, "image"⟩

/-- serde serialization of the untagged `ContentType`: the variant's
content, with no discriminant wrapper. -/
def encodeContentType : ContentType → Json
  | .Text t => encodeContentText t
  | .Image i => encodeContentImage i

/-- serde deserialization of the untagged `ContentType`: try the variants
in declaration order, first structural match wins. -/
def decodeContentType (j : Json) : Option ContentType :=
  match decodeContentText j with
  | some t => some (.Text t)
  | none => (decodeContentImage j).map .Image

/-- Rust's `String` type, named so the `MessageContent.String` constructor
below cannot shadow it inside its own declaration. -/
abbrev Str := String

/-- the `MessageContent` untagged enum of `mod.rs`: a plain string or an
array of content blocks, tried in declaration order. -/
inductive MessageContent where
  | String (s : Str)
  | ContentArray (xs : List ContentType)
deriving DecidableEq

/-- Rust `MessageContent::new` of `mod.rs`. -/
def MessageContent.new (content : Str) : MessageContent := .String content

/-- Rust `MessageContent::new_content_array_text` of `mod.rs`: wraps each string
as a text block. -/
def MessageContent.new_content_array_text (content : List Str) : MessageContent :=
  .ContentArray (content.map ContentType.new_text)

/-- serde serialization of the untagged `MessageContent`. -/
def encodeMessageContent : MessageContent → Json
  | .String s => .str s
  | .ContentArray xs => .arr (xs.map encodeContentType)

/-- First untagged variant of `MessageContent`: a JSON string. -/
def decodeMessageContentString (j : Json) : Option MessageContent :=
  (decodeStr j).map MessageContent.String

/-- Second untagged variant of `MessageContent`: an array of blocks. -/
def decodeMessageContentArray (j : Json) : Option MessageContent :=
  match j with
  | .arr xs => (decodeJsonList decodeContentType xs).map .ContentArray
  | _ => none

/-- serde deserialization of the untagged `MessageContent`: variants in
declaration order, first structural match wins. -/
def decodeMessageContent (j : Json) : Option MessageContent :=
  match decodeMessageContentString j with
  | some v => some v
  | none => decodeMessageContentArray j

/-- the `Role` enum of `mod.rs`: serde renames to lowercase strings. -/
inductive Role where
  | User
  | Assistant
deriving DecidableEq

/-- Rust `Role::new` of `mod.rs`: the lossy decode from a string, defaulting to
`User` for anything unrecognized. -/
def Role.new (role : String) : Role :=
  match role with
  | "user" => .User
  | "assistant" => .Assistant
  | _ => .User

/-- serde serialization of `Role`. -/
def encodeRole : Role → Json
  | .User => .str "user"
  | .Assistant => .str "assistant"

/-- serde deserialization of `Role` (strict: only the two renames). -/
def decodeRole : Json → Option Role
  | .str "user" => some .User
  | .str "assistant" => some .Assistant
  | _ => none

/-- the `Messages` struct of `mod.rs`. -/
structure Messages where
  role : Role
  content : MessageContent
deriving DecidableEq

/-- Rust `Messages::new` of `mod.rs`. -/
def Messages.new (role : Role) (content : MessageContent) : Messages :=
  ⟨role, content⟩

/-- Rust `Messages::new_user_message_prompt` of `mod.rs`. -/
def Messages.new_user_message_prompt (content : String) : Messages :=
  ⟨.User, .String content⟩

/-- Rust `Messages::new_user_message_prompt_content_array` of `mod.rs`. -/
def Messages.new_user_message_prompt_content_array (content : List String) : Messages :=
  ⟨.User, MessageContent.new_content_array_text content⟩

/-- Rust `Messages::new_assistant_message_prompt` of `mod.rs`. -/
def Messages.new_assistant_message_prompt (content : String) : Messages :=
  ⟨.Assistant, .String content⟩

/-- serde serialization of `Messages` (declaration field order). -/
def encodeMessages (m : Messages) : Json :=
  .obj [("role", encodeRole m.role), ("content", encodeMessageContent m.content)]

/-- serde deserialization of `Messages`. -/
def decodeMessages (j : Json) : Option Messages :=
  match j with
  | .obj fs =>
    match (jsonLookup fs "role").bind decodeRole with
    | some r =>
      match (jsonLookup fs "content").bind decodeMessageContent with
      | some c => some ⟨r, c⟩
      | none => none
    | none => none
  | _ => none

/-- the `RequestBodyAnthropic` struct of `mod.rs`; `max_tokens` is an
`i32`, `temperature` an `Option<f32>`. -/
structure RequestBodyAnthropic where
  model : String
  max_tokens : Int
  messages : List Messages
  temperature : Option F32

/-- Rust `RequestBodyAnthropic::new` of `mod.rs`. -/
def RequestBodyAnthropic.new (model : String) (max_tokens : Int)
    (messages : List Messages) (temperature : Option F32) : RequestBodyAnthropic :=
  ⟨model, max_tokens, messages, temperature⟩

/-- serde serialization of `RequestBodyAnthropic` (declaration field
order; the `Option` field is written as `null` when `None`). -/
def encodeRequestBodyAnthropic (b : RequestBodyAnthropic) : Json :=
  .obj [("model", .str b.model),
        ("max_tokens", .num (b.max_tokens : Rat)),
        ("messages", .arr (b.messages.map encodeMessages)),
        ("temperature", encodeOptF32 b.temperature)]

/-- serde deserialization of `RequestBodyAnthropic`. -/
def decodeRequestBodyAnthropic (j : Json) : Option RequestBodyAnthropic :=
  match j with
  | .obj fs =>
    match (jsonLookup fs "model").bind decodeStr with
    | some m =>
      match (jsonLookup fs "max_tokens").bind decodeI32 with
      | some mt =>
        match ((jsonLookup fs "messages").bind decodeArr).bind
            (decodeJsonList decodeMessages) with
        | some msgs =>
          match decodeOptF32Field fs "temperature" with
          | some t => some ⟨m, mt, msgs, t⟩
          | none => none
        | none => none
      | none => none
    | none => none
  | _ => none

/-- the `Usage` struct of `mod.rs`. -/
structure Usage where
  input_tokens : Int
  output_tokens : Int

/-- serde deserialization of `Usage`. -/
def decodeUsage (j : Json) : Option Usage :=
  match j with
  | .obj fs =>
    match (jsonLookup fs "input_tokens").bind decodeI32 with
    | some i =>
      match (jsonLookup fs "output_tokens").bind decodeI32 with
      | some o => some ⟨i, o⟩
      | none => none
    | none => none
  | _ => none

/-- the `ResponseBodyAnthropic` struct of `mod.rs` (`message_type` is
serde-renamed to `"type"`). -/
structure ResponseBodyAnthropic where
  id : String
  model : String
  role : Role
  stop_reason : String
  stop_sequence : Option String
  message_type : String
  usage : Usage
  content : List ContentType

/-- serde deserialization of `ResponseBodyAnthropic`. -/
def decodeResponseBodyAnthropic (j : Json) : Option ResponseBodyAnthropic :=
  match j with
  | .obj fs =>
    match (jsonLookup fs "id").bind decodeStr,
          (jsonLookup fs "model").bind decodeStr,
          (jsonLookup fs "role").bind decodeRole,
          (jsonLookup fs "stop_reason").bind decodeStr,
          decodeOptStrField fs "stop_sequence",
          (jsonLookup fs "type").bind decodeStr,
          (jsonLookup fs "usage").bind decodeUsage,
          ((jsonLookup fs "content").bind decodeArr).bind
            (decodeJsonList decodeContentType) with
    | some i, some m, some r, some sr, some ss, some ty, some u, some c =>
      some ⟨i, m, r, sr, ss, ty, u, c⟩
    | _, _, _, _, _, _, _, _ => none
  | _ => none

/-- the `Version` enum of `mod.rs`: the protocol version header value. -/
inductive Version where
  | Latest
  | Initial
deriving DecidableEq

/-- the `Default` impl for `Version` in `mod.rs`. -/
def Version.defaultVersion : Version := .Latest

/-- the `fmt::Display` impl for `Version` in `mod.rs`. -/
def Version.display : Version → String
  | .Latest => "2023-06-01"
  | .Initial => "2023-01-01"

/-- the `ApiVersion` enum of `mod.rs`. -/
inductive ApiVersion where
  | V1
deriving DecidableEq

/-- the `fmt::Display` impl for `ApiVersion` in `mod.rs`. -/
def ApiVersion.display : ApiVersion → String
  | .V1 => "v1"

/-- Errors the client surfaces (in Rust all are `anyhow::Error`; the
constructors here record which failure produced the value). -/
inductive ClientError where
  | envVarNotPresent (name : String)
  | invalidHeaderValue
  | apiError (message : String)
  | parseError
deriving DecidableEq

/-- the `Config` struct of `mod.rs`. -/
structure Config where
  api_key : String
  api_url : String
  version : Version
  api_version : ApiVersion
deriving DecidableEq

/-- Rust `Config::new` of `mod.rs`. -/
def Config.new (api_key api_url : String) : Config :=
  ⟨api_key, api_url, .Latest, .V1⟩

/-- Rust `Config::set_version` of `mod.rs`. -/
def Config.set_version (c : Config) (version : Version) : Config :=
  ⟨c.api_key, c.api_url, version, c.api_version⟩

/-- Rust `Config::new_with_version` of `mod.rs`. -/
def Config.new_with_version (api_key api_url : String) (version : Version) : Config :=
  ⟨api_key, api_url, version, .V1⟩

/-- Rust `Config::default` of `mod.rs`: reads `ANTHROPIC_API_KEY` from the
process environment, modelled as an explicit `String → Option String`
(`std::env::var` fails with `VarError::NotPresent` when the variable is
absent). -/
def Config.default (env : String → Option String) : Except ClientError Config :=
  match env "ANTHROPIC_API_KEY" with
  | none => .error (.envVarNotPresent "ANTHROPIC_API_KEY")
  | some api_key => .ok ⟨api_key, "https://api.anthropic.com", .Latest, .V1⟩

/-- the byte test of `http::HeaderValue` parsing: visible ASCII, obs-text
(bytes ≥ 0x80, which covers every non-ASCII UTF-8 byte) and horizontal
tab are allowed; other control bytes and DEL are not. -/
def isValidHeaderChar (c : Char) : Bool :=
  c = '\t' || (32 ≤ c.toNat && c.toNat ≠ 127)

/-- Rust `str::parse::<HeaderValue>` succeeds exactly when every byte passes
`isValidHeaderChar` (checked per character: a multi-byte UTF-8 character's
bytes are all ≥ 0x80 and thus allowed, matching the per-character test). -/
def isValidHeaderValue (s : String) : Bool := s.data.all isValidHeaderChar

/-- the `AnthropicClient` struct of `mod.rs`; the `reqwest::Client` built
with `default_headers(headers)` is modelled by the header list itself. -/
structure AnthropicClient where
  api_key : String
  api_url : String
  version : Version
  api_version : ApiVersion
  default_headers : List (String × String)
deriving DecidableEq

/-- Rust `AnthropicClient::new` of `mod.rs`: default headers are the
anthropic-version and x-api-key pair only (no content-type).  The Rust
code unwraps header parsing (panicking on an invalid key), which is not
modelled; the headers' string values are kept as given. -/
def AnthropicClient.new (config : Config) : AnthropicClient :=
  ⟨config.api_key, config.api_url, config.version, config.api_version,
    [("anthropic-version", config.version.display), ("x-api-key", config.api_key)]⟩

/-- Rust `AnthropicClient::default` of `mod.rs`: builds the config from the
environment, then parses the version string and the api key into header
values with `?` (so an unparsable key is an error, not a panic), and adds
`content-type: application/json` to the default headers. -/
def AnthropicClient.default (env : String → Option String) :
    Except ClientError AnthropicClient :=
  match Config.default env with
  | .error e => .error e
  | .ok config =>
    if isValidHeaderValue config.version.display then
      if isValidHeaderValue config.api_key then
        .ok ⟨config.api_key, config.api_url, config.version, config.api_version,
          [("anthropic-version", config.version.display),
           ("x-api-key", config.api_key),
           ("content-type", "application/json")]⟩
      else .error .invalidHeaderValue
    else .error .invalidHeaderValue

/-- Rust `AnthropicClient::set_version` of `mod.rs`: updates the stored version
field only (the already-built client's default headers are unchanged). -/
def AnthropicClient.set_version (c : AnthropicClient) (version : Version) :
    AnthropicClient :=
  ⟨c.api_key, c.api_url, version, c.api_version, c.default_headers⟩

/-- Rust `AnthropicClient::get_url` of `mod.rs`. -/
def AnthropicClient.get_url (c : AnthropicClient) (path : String) : String :=
  c.api_url ++ "/" ++ c.api_version.display ++ "/" ++ path

/-- An outgoing HTTP request as reqwest finally sends it. -/
structure HttpRequest where
  method : String
  url : String
  headers : List (String × String)
  query : List (String × String)
  body : Option Json

/-- reqwest's default-header semantics: headers set on the request itself
win; a default header is appended only when no request header has its
name. -/
def mergeDefaultHeaders (reqHeaders defHeaders : List (String × String)) :
    List (String × String) :=
  reqHeaders ++ defHeaders.filter (fun d => reqHeaders.all (fun r => r.1 != d.1))

/-- First-match header (or query pair) lookup by name. -/
def assocLookup (pairs : List (String × String)) (name : String) : Option String :=
  (pairs.find? (fun p => p.1 == name)).map (fun p => p.2)

/-- the request `AnthropicClient::get_message_completed` sends: a POST to
`get_url("messages")` whose body is the serialized `RequestBodyAnthropic`;
no per-request headers are set, so the client's default headers apply. -/
def AnthropicClient.get_message_completed_request (c : AnthropicClient)
    (body : RequestBodyAnthropic) : HttpRequest :=
  ⟨"POST", c.get_url "messages", mergeDefaultHeaders [] c.default_headers,
    [], some (encodeRequestBodyAnthropic body)⟩

/-- the `GetModelsQueryParams` struct of `models.rs`; `limit` is an
`Option<i32>`. -/
structure GetModelsQueryParams where
  before_id : Option String
  after_id : Option String
  limit : Option Int
deriving DecidableEq

/-- the `Default` impl for `GetModelsQueryParams` in `models.rs`. -/
def GetModelsQueryParams.defaultParams : GetModelsQueryParams :=
  ⟨none, none, none⟩

/-- Rust `GetModelsQueryParams::new` of `models.rs`. -/
def GetModelsQueryParams.new (before_id after_id : Option String)
    (limit : Option Int) : GetModelsQueryParams :=
  ⟨before_id, after_id, limit⟩

/-- serde_urlencoded's serialization of one `Option` field: a `Some` value
becomes one key-value pair, a `None` emits nothing at all. -/
def optPair (key : String) : Option String → List (String × String)
  | some v => [(key, v)]
  | none => []

/-- the query string reqwest's `.query(&params)` appends for
`GetModelsQueryParams`: the present fields in declaration order, absent
fields omitted entirely. -/
def GetModelsQueryParams.queryPairs (p : GetModelsQueryParams) :
    List (String × String) :=
  optPair "before_id" p.before_id ++ optPair "after_id" p.after_id ++
    optPair "limit" (p.limit.map toString)

/-- the request `AnthropicClient::get_models` sends: a GET to
`{api_url}/v1/models` with the anthropic-version header hardcoded to
"2023-06-01" and the x-api-key header set on the request itself. -/
def AnthropicClient.get_models_request (c : AnthropicClient) : HttpRequest :=
  ⟨"GET", c.api_url ++ "/v1/models",
    mergeDefaultHeaders [("anthropic-version", "2023-06-01"), ("x-api-key", c.api_key)]
      c.default_headers,
    [], none⟩

/-- the request `AnthropicClient::get_model_with_params` sends: as
`get_models` plus the serialized query parameters. -/
def AnthropicClient.get_model_with_params_request (c : AnthropicClient)
    (params : GetModelsQueryParams) : HttpRequest :=
  ⟨"GET", c.api_url ++ "/v1/models",
    mergeDefaultHeaders [("anthropic-version", "2023-06-01"), ("x-api-key", c.api_key)]
      c.default_headers,
    params.queryPairs, none⟩

/-- the request `AnthropicClient::get_model_by_id` sends. -/
def AnthropicClient.get_model_by_id_request (c : AnthropicClient)
    (model_id : String) : HttpRequest :=
  ⟨"GET", c.api_url ++ "/v1/models/" ++ model_id,
    mergeDefaultHeaders [("anthropic-version", "2023-06-01"), ("x-api-key", c.api_key)]
      c.default_headers,
    [], none⟩

/-- An HTTP response as the client observes it: the status code, the body
text, and the body's JSON parse when the text is valid JSON. -/
structure HttpResponse where
  status : Nat
  text : String
  json : Option Json

/-- the response handling of `AnthropicClient::get_message_completed`: a
non-200 status becomes an error carrying the body text formatted as
`"Error: {text}"`; on 200 the body is parsed and deserialized into
`ResponseBodyAnthropic`, a mismatch becoming a parse error. -/
def get_message_completed_response (resp : HttpResponse) :
    Except ClientError ResponseBodyAnthropic :=
  if resp.status = 200 then
    match resp.json with
    | none => .error .parseError
    | some j =>
      match decodeResponseBodyAnthropic j with
      | none => .error .parseError
      | some b => .ok b
  else .error (.apiError ("Error: " ++ resp.text))

/-! ## Round-trip lemmas for the serde encoders and decoders -/

/-- Decoding inverts encoding for `MediaType`. -/
theorem decode_encode_mediaType (m : MediaType) :
    decodeMediaType (encodeMediaType m) = some m := by
  cases m <;> rfl

/-- Decoding inverts encoding for `Source`, whatever its `content_type`
field holds. -/
theorem decode_encode_source (s : Source) :
    decodeSource (encodeSource s) = some s := by
  obtain ⟨ty, d, m⟩ := s
  cases m <;> rfl

/-- Decoding inverts encoding for `ContentText`. -/
theorem decode_encode_contentText (t : ContentText) :
    decodeContentText (encodeContentText t) = some t := rfl

/-- Decoding inverts encoding for `ContentImage`. -/
theorem decode_encode_contentImage (i : ContentImage) :
    decodeContentImage (encodeContentImage i) = some i := by
  obtain ⟨s, ty⟩ := i
  obtain ⟨sty, d, m⟩ := s
  cases m <;> rfl

/-- An encoded `ContentImage` has no `"text"` field, so the `Text` variant
of the untagged decode fails on it. -/
theorem decodeContentText_encodeContentImage (i : ContentImage) :
    decodeContentText (encodeContentImage i) = none := rfl

/-- Decoding inverts encoding for the untagged `ContentType`. -/
theorem decode_encode_contentType (c : ContentType) :
    decodeContentType (encodeContentType c) = some c := by
  cases c with
  | Text t => rfl
  | Image i =>
      show decodeContentType (encodeContentImage i) = some (.Image i)
      unfold decodeContentType
      rw [decodeContentText_encodeContentImage, decode_encode_contentImage]
      rfl

/-- Decoding a mapped encoder over a list inverts it elementwise. -/
theorem decodeJsonList_map_encode {α : Type} (d : Json → Option α) (e : α → Json)
    (h : ∀ a, d (e a) = some a) (xs : List α) :
    decodeJsonList d (xs.map e) = some xs := by
  induction xs with
  | nil => rfl
  | cons x xs ih => simp [decodeJsonList, h x, ih]

/-- Decoding inverts encoding for the untagged `MessageContent`. -/
theorem decode_encode_messageContent (v : MessageContent) :
    decodeMessageContent (encodeMessageContent v) = some v := by
  cases v with
  | String s => rfl
  | ContentArray xs =>
      show decodeMessageContentArray (.arr (xs.map encodeContentType)) =
        some (.ContentArray xs)
      simp [decodeMessageContentArray,
        decodeJsonList_map_encode _ _ decode_encode_contentType]

/-- Decoding inverts encoding for `Role`. -/
theorem decode_encode_role (r : Role) : decodeRole (encodeRole r) = some r := by
  cases r <;> rfl

/-- Decoding inverts encoding for `Messages`. -/
theorem decode_encode_messages (m : Messages) :
    decodeMessages (encodeMessages m) = some m := by
  obtain ⟨r, c⟩ := m
  cases r <;>
    simp [encodeMessages, decodeMessages, jsonLookup, encodeRole, decodeRole,
      decode_encode_messageContent]

/-- Decoding the `i32` encoding of an in-range integer recovers it. -/
theorem decodeI32_encode (n : Int) (h : isI32 n) :
    decodeI32 (.num (n : Rat)) = some n := by
  simp [decodeI32, Rat.den_intCast, Rat.num_intCast, h]

/-- Decoding inverts encoding for `RequestBodyAnthropic` when the
`max_tokens` value is in `i32` range and the temperature is absent or
finite. -/
theorem decode_encode_requestBody (b : RequestBodyAnthropic)
    (hmt : isI32 b.max_tokens)
    (ht : b.temperature = none ∨ ∃ q, b.temperature = some (F32.finite q)) :
    decodeRequestBodyAnthropic (encodeRequestBodyAnthropic b) = some b := by
  obtain ⟨m, mt, msgs, t⟩ := b
  have hmsgs := decodeJsonList_map_encode _ _ decode_encode_messages msgs
  have hmt' := decodeI32_encode mt hmt
  rcases ht with ht | ⟨q, ht⟩ <;> subst ht <;>
    simp [encodeRequestBodyAnthropic, decodeRequestBodyAnthropic, jsonLookup,
      decodeStr, decodeArr, decodeOptF32Field, encodeOptF32, encodeF32,
      hmsgs, hmt']

/-! ## Request-construction lemmas -/

/-- With no per-request headers, the default headers pass through. -/
theorem mergeDefaultHeaders_nil (d : List (String × String)) :
    mergeDefaultHeaders [] d = d := by
  simp [mergeDefaultHeaders]

/-! ## Claims -/

/-- C10: `Messages::new_user_message_prompt` returns role `User` with the
supplied string as plain-string content, and
`Messages::new_assistant_message_prompt` returns role `Assistant` with the
supplied string; neither helper assigns any other role or alters the
string. -/
theorem c10_message_prompt_helpers (s : String) :
    Messages.new_user_message_prompt s = ⟨Role.User, MessageContent.String s⟩ ∧
    Messages.new_assistant_message_prompt s = ⟨Role.Assistant, MessageContent.String s⟩ :=
  ⟨rfl, rfl⟩

/-- C3: `Role::new` decodes "user" to `User`, "assistant" to `Assistant`,
and any other string lossily to `User`; serialization of a `Role` is the
lowercase string "user" or "assistant". -/
theorem c3_role_decode_serialize :
    Role.new "user" = Role.User ∧
    Role.new "assistant" = Role.Assistant ∧
    (∀ s : String, s ≠ "user" → s ≠ "assistant" → Role.new s = Role.User) ∧
    (∀ r : Role, encodeRole r = Json.str "user" ∨ encodeRole r = Json.str "assistant") := by
  refine ⟨rfl, rfl, ?_, ?_⟩
  · intro s h1 h2
    unfold Role.new
    split
    · rfl
    · simp_all
    · rfl
  · intro r
    cases r
    · exact Or.inl rfl
    · exact Or.inr rfl

/-- C2 as stated fails: `Source.content_type` is a public `String` field,
so a directly constructed `Source` holding "tampered" JSON-encodes its
"type" field as "tampered", not as the literal "base64". -/
theorem c2_counterexample :
    encodeSource ⟨"tampered", "imagedata", MediaType.Jpeg⟩ =
      Json.obj [("type", Json.str "tampered"), ("data", Json.str "imagedata"),
        ("media_type", Json.str "image/jpeg")] ∧
    Json.str "tampered" ≠ Json.str "base64" := by
  refine ⟨rfl, ?_⟩
  intro h
  simp at h

/-- C2 amended: every `Source` built through `Source::new` has
`content_type = "base64"` (the constructor hardcodes it, ignoring caller
input for that field) and therefore JSON-encodes its "type" field as the
literal "base64"; but the field is public, and a `Source` value encodes
whatever string its `content_type` field holds. -/
theorem c2_source_type_encoding :
    (∀ (d : String) (m : MediaType),
        Source.new d m = ⟨"base64", d, m⟩ ∧
        encodeSource (Source.new d m) =
          Json.obj [("type", Json.str "base64"), ("data", Json.str d),
            ("media_type", encodeMediaType m)]) ∧
    (∀ s : Source,
        encodeSource s =
          Json.obj [("type", Json.str s.content_type), ("data", Json.str s.data),
            ("media_type", encodeMediaType s.media_type)]) :=
  ⟨fun _ _ => ⟨rfl, rfl⟩, fun _ => rfl⟩

/-- C9: `get_model_with_params` appends exactly the serialized query
pairs; each optional field's pair is present with its value exactly when
the field is `Some`, and an absent (`None`) field contributes no pair at
all (in particular nothing with a "null" placeholder), every emitted pair
being one of the three optional parameters. -/
theorem c9_query_params :
    (∀ (c : AnthropicClient) (p : GetModelsQueryParams),
        (c.get_model_with_params_request p).query = p.queryPairs) ∧
    (∀ p : GetModelsQueryParams,
        assocLookup p.queryPairs "before_id" = p.before_id ∧
        assocLookup p.queryPairs "after_id" = p.after_id ∧
        assocLookup p.queryPairs "limit" = p.limit.map toString) ∧
    (∀ (p : GetModelsQueryParams) (kv : String × String), kv ∈ p.queryPairs →
        (kv.1 = "before_id" ∧ p.before_id = some kv.2) ∨
        (kv.1 = "after_id" ∧ p.after_id = some kv.2) ∨
        (kv.1 = "limit" ∧ p.limit.map toString = some kv.2)) := by
  refine ⟨fun c p => rfl, fun p => ?_, fun p kv hkv => ?_⟩
  · obtain ⟨b, a, l⟩ := p
    cases b <;> cases a <;> cases l <;>
      simp [GetModelsQueryParams.queryPairs, optPair, assocLookup, List.find?]
  · obtain ⟨b, a, l⟩ := p
    cases b <;> cases a <;> cases l <;>
      simp_all [GetModelsQueryParams.queryPairs, optPair] <;>
      (rcases hkv with rfl | rfl | rfl) <;> simp

/-- Concrete client for counterexamples: built from
`Config::new_with_version` with `Version::Initial`. -/
def exampleInitialClient : AnthropicClient :=
  AnthropicClient.new
    (Config.new_with_version "secret-key" "https://api.anthropic.com" Version.Initial)

/-- C1 as stated fails: a client configured with `Version::Initial` (whose
protocol version string is "2023-01-01") still sends anthropic-version
"2023-06-01" on the models endpoint, because `get_models` hardcodes that
header on the request, overriding the client's default header. -/
theorem c1_counterexample :
    exampleInitialClient.version.display = "2023-01-01" ∧
    assocLookup exampleInitialClient.get_models_request.headers "anthropic-version" =
      some "2023-06-01" ∧
    assocLookup exampleInitialClient.get_models_request.headers "anthropic-version" ≠
      some exampleInitialClient.version.display := by
  refine ⟨rfl, rfl, ?_⟩
  intro h
  rw [show assocLookup exampleInitialClient.get_models_request.headers "anthropic-version" =
    some "2023-06-01" from rfl,
    show exampleInitialClient.version.display = "2023-01-01" from rfl] at h
  simp at h

/-- C1 amended: the configured protocol version defaults to `Latest` and
is overridable (`new_with_version`, `set_version`), and it is the value of
the client's default anthropic-version header, which the messages endpoint
sends unchanged; but all three model endpoints set anthropic-version
"2023-06-01" on the request itself, which overrides the default header, so
they send "2023-06-01" whatever version the client was configured with. -/
theorem c1_version_header :
    (∀ k u, (Config.new k u).version = Version.Latest) ∧
    (∀ k u v, (Config.new_with_version k u v).version = v) ∧
    (∀ c v, (Config.set_version c v).version = v) ∧
    (∀ cfg, assocLookup (AnthropicClient.new cfg).default_headers "anthropic-version" =
        some cfg.version.display) ∧
    (∀ c b, (AnthropicClient.get_message_completed_request c b).headers =
        c.default_headers) ∧
    (∀ c : AnthropicClient,
        assocLookup c.get_models_request.headers "anthropic-version" =
          some "2023-06-01") ∧
    (∀ (c : AnthropicClient) (p : GetModelsQueryParams),
        assocLookup (c.get_model_with_params_request p).headers "anthropic-version" =
          some "2023-06-01") ∧
    (∀ (c : AnthropicClient) (i : String),
        assocLookup (c.get_model_by_id_request i).headers "anthropic-version" =
          some "2023-06-01") := by
  refine ⟨fun _ _ => rfl, fun _ _ _ => rfl, fun _ _ => rfl, fun _ => rfl,
    fun c b => mergeDefaultHeaders_nil c.default_headers, fun _ => rfl,
    fun _ _ => rfl, fun _ _ => rfl⟩

/-- Concrete client for counterexamples: built from `Config::new`, so via
`AnthropicClient::new`. -/
def exampleNewClient : AnthropicClient :=
  AnthropicClient.new (Config.new "secret-key" "https://api.anthropic.com")

/-- Concrete request body used in counterexamples. -/
def exampleBody : RequestBodyAnthropic :=
  ⟨"claude-3-5-sonnet-20241022", 1000, [], none⟩

/-- C4 as stated fails: a client constructed via `AnthropicClient::new`
sends anthropic-version and x-api-key on `get_message_completed`'s POST
but no content-type header at all, since `new` (unlike `default`) never
inserts `content-type: application/json` into the default headers and the
request sets none. -/
theorem c4_counterexample :
    assocLookup (exampleNewClient.get_message_completed_request exampleBody).headers
      "anthropic-version" = some "2023-06-01" ∧
    assocLookup (exampleNewClient.get_message_completed_request exampleBody).headers
      "x-api-key" = some "secret-key" ∧
    assocLookup (exampleNewClient.get_message_completed_request exampleBody).headers
      "content-type" = none :=
  ⟨rfl, rfl, rfl⟩

/-- Inversion of a successful `AnthropicClient::default`: the environment
held the key, the key is a valid header value, and the client is exactly
the one built with the three default headers. -/
theorem AnthropicClient.default_ok (env : String → Option String)
    (c : AnthropicClient) (h : AnthropicClient.default env = .ok c) :
    env "ANTHROPIC_API_KEY" = some c.api_key ∧
    isValidHeaderValue c.api_key = true ∧
    c = ⟨c.api_key, "https://api.anthropic.com", .Latest, .V1,
      [("anthropic-version", "2023-06-01"), ("x-api-key", c.api_key),
       ("content-type", "application/json")]⟩ := by
  unfold AnthropicClient.default Config.default at h
  cases henv : env "ANTHROPIC_API_KEY" <;> rw [henv] at h
  · simp at h
  · rename_i k
    dsimp only at h
    rw [show isValidHeaderValue (Version.display Version.Latest) = true from rfl,
      if_pos rfl] at h
    by_cases hv : isValidHeaderValue k
    · rw [if_pos hv] at h
      cases h
      exact ⟨rfl, hv, rfl⟩
    · rw [if_neg hv] at h
      simp at h

/-- C4 amended: a client built by `AnthropicClient::default` issues the
messages POST with all three headers (anthropic-version, x-api-key, and
content-type: application/json); a client built by `AnthropicClient::new`
issues it with anthropic-version and x-api-key only, and no content-type
header. -/
theorem c4_messages_request_headers :
    (∀ (env : String → Option String) (c : AnthropicClient),
        AnthropicClient.default env = .ok c →
        ∀ b : RequestBodyAnthropic,
          assocLookup (c.get_message_completed_request b).headers "anthropic-version" =
            some "2023-06-01" ∧
          assocLookup (c.get_message_completed_request b).headers "x-api-key" =
            some c.api_key ∧
          assocLookup (c.get_message_completed_request b).headers "content-type" =
            some "application/json") ∧
    (∀ (cfg : Config) (b : RequestBodyAnthropic),
        assocLookup ((AnthropicClient.new cfg).get_message_completed_request b).headers
          "anthropic-version" = some cfg.version.display ∧
        assocLookup ((AnthropicClient.new cfg).get_message_completed_request b).headers
          "x-api-key" = some cfg.api_key ∧
        assocLookup ((AnthropicClient.new cfg).get_message_completed_request b).headers
          "content-type" = none) := by
  constructor
  · intro env c hc b
    obtain ⟨-, -, hc'⟩ := AnthropicClient.default_ok env c hc
    rw [show (c.get_message_completed_request b).headers = c.default_headers from
      mergeDefaultHeaders_nil c.default_headers]
    rw [show c.default_headers = [("anthropic-version", "2023-06-01"),
      ("x-api-key", c.api_key), ("content-type", "application/json")] from
      congrArg AnthropicClient.default_headers hc']
    refine ⟨rfl, ?_, ?_⟩ <;>
      simp [assocLookup, List.find?]
  · intro cfg b
    rw [show ((AnthropicClient.new cfg).get_message_completed_request b).headers =
      (AnthropicClient.new cfg).default_headers from
      mergeDefaultHeaders_nil _]
    refine ⟨rfl, ?_, ?_⟩ <;>
      simp [AnthropicClient.new, assocLookup, List.find?]

/-- Environment for the C8 counterexample: `ANTHROPIC_API_KEY` is present
but holds a newline, which no HTTP header value may contain. -/
def badKeyEnv : String → Option String :=
  fun name => if name = "ANTHROPIC_API_KEY" then some "secret\nkey" else none

/-- C8 as stated fails: with `ANTHROPIC_API_KEY` present but containing a
newline, `Config::default` succeeds, yet `AnthropicClient::default` fails
(the key does not parse as a header value), so default construction does
not succeed whenever the credential is present. -/
theorem c8_counterexample :
    badKeyEnv "ANTHROPIC_API_KEY" = some "secret\nkey" ∧
    Config.default badKeyEnv =
      .ok ⟨"secret\nkey", "https://api.anthropic.com", Version.Latest, ApiVersion.V1⟩ ∧
    AnthropicClient.default badKeyEnv = .error ClientError.invalidHeaderValue :=
  ⟨rfl, rfl, rfl⟩

/-- C8 amended: `Config::default` fails with a configuration error exactly
when `ANTHROPIC_API_KEY` is absent, and otherwise succeeds with api_url
"https://api.anthropic.com", version `Latest` and api_version `V1`;
`AnthropicClient::default` additionally requires the key to be a valid
HTTP header value, succeeding with those same fields (and the three
default headers) when it is, and failing when it is not. -/
theorem c8_default_construction :
    (∀ env : String → Option String, env "ANTHROPIC_API_KEY" = none →
        Config.default env = .error (ClientError.envVarNotPresent "ANTHROPIC_API_KEY") ∧
        AnthropicClient.default env =
          .error (ClientError.envVarNotPresent "ANTHROPIC_API_KEY")) ∧
    (∀ (env : String → Option String) (k : String), env "ANTHROPIC_API_KEY" = some k →
        Config.default env =
          .ok ⟨k, "https://api.anthropic.com", Version.Latest, ApiVersion.V1⟩ ∧
        (isValidHeaderValue k = true →
          AnthropicClient.default env =
            .ok ⟨k, "https://api.anthropic.com", Version.Latest, ApiVersion.V1,
              [("anthropic-version", "2023-06-01"), ("x-api-key", k),
               ("content-type", "application/json")]⟩) ∧
        (isValidHeaderValue k = false →
          AnthropicClient.default env = .error ClientError.invalidHeaderValue)) := by
  constructor
  · intro env henv
    unfold AnthropicClient.default Config.default
    rw [henv]
    exact ⟨rfl, rfl⟩
  · intro env k henv
    unfold AnthropicClient.default Config.default
    rw [henv]
    dsimp only
    rw [show isValidHeaderValue (Version.display Version.Latest) = true from rfl,
      if_pos rfl]
    refine ⟨rfl, ?_, ?_⟩
    · intro hv
      rw [if_pos hv]
      rfl
    · intro hv
      rw [if_neg (by simp [hv])]

/-- Request body for the C6 counterexample: its temperature is `f32` NaN. -/
def nanTemperatureBody : RequestBodyAnthropic :=
  ⟨"claude-3-5-sonnet-20241022", 1000, [], some F32.nan⟩

/-- C6 as stated fails: serde_json writes a NaN temperature as JSON
`null`, which decodes back as `None`, so a `RequestBodyAnthropic` with a
non-finite temperature does not round-trip to an equal value. -/
theorem c6_counterexample :
    decodeRequestBodyAnthropic (encodeRequestBodyAnthropic nanTemperatureBody) =
      some ⟨"claude-3-5-sonnet-20241022", 1000, [], none⟩ ∧
    (⟨"claude-3-5-sonnet-20241022", 1000, [], none⟩ : RequestBodyAnthropic) ≠
      nanTemperatureBody := by
  refine ⟨rfl, ?_⟩
  intro h
  simp [nanTemperatureBody, RequestBodyAnthropic.mk.injEq] at h

/-- C6 amended: JSON-encoding then JSON-decoding a `RequestBodyAnthropic`
yields an equal value for every model string, every `i32` max_tokens,
every messages sequence (order preserved) and every temperature that is
absent or a finite float; only a non-finite temperature (NaN or an
infinity, which serde_json writes as `null`) breaks the round-trip. -/
theorem c6_requestBody_roundtrip (b : RequestBodyAnthropic)
    (hmt : isI32 b.max_tokens)
    (ht : b.temperature = none ∨ ∃ q, b.temperature = some (F32.finite q)) :
    decodeRequestBodyAnthropic (encodeRequestBodyAnthropic b) = some b :=
  decode_encode_requestBody b hmt ht

/-- C6 witness: the round-trip theorem applied to a concrete request body
with one user message and a finite temperature. -/
theorem c6_requestBody_roundtrip_witness :
    decodeRequestBodyAnthropic (encodeRequestBodyAnthropic
      ⟨"claude-3-5-sonnet-20241022", 1000,
        [⟨Role.User, MessageContent.String "What is the capital of France?"⟩],
        some (F32.finite (1 / 10))⟩) =
      some ⟨"claude-3-5-sonnet-20241022", 1000,
        [⟨Role.User, MessageContent.String "What is the capital of France?"⟩],
        some (F32.finite (1 / 10))⟩ :=
  c6_requestBody_roundtrip
    ⟨"claude-3-5-sonnet-20241022", 1000,
      [⟨Role.User, MessageContent.String "What is the capital of France?"⟩],
      some (F32.finite (1 / 10))⟩
    (by constructor <;> decide)
    (Or.inr ⟨1 / 10, rfl⟩)

/-- C5: for both untagged unions, any JSON value that decodes re-encodes
to an equivalent shape — the re-encoded JSON decodes to the very same
value, and when the original JSON was itself encoder-produced the
re-encoding reproduces it exactly; and decoding tries the declared
variants in order, the first structural match winning (`ContentText`
before `ContentImage`, a string before a block array). -/
theorem c5_untagged_unions :
    (∀ (j : Json) (v : MessageContent), decodeMessageContent j = some v →
        decodeMessageContent (encodeMessageContent v) = some v ∧
        ∀ w, j = encodeMessageContent w → encodeMessageContent v = j) ∧
    (∀ (j : Json) (c : ContentType), decodeContentType j = some c →
        decodeContentType (encodeContentType c) = some c ∧
        ∀ w, j = encodeContentType w → encodeContentType c = j) ∧
    (∀ (j : Json) (t : ContentText), decodeContentText j = some t →
        decodeContentType j = some (ContentType.Text t)) ∧
    (∀ (j : Json) (i : ContentImage), decodeContentText j = none →
        decodeContentImage j = some i →
        decodeContentType j = some (ContentType.Image i)) := by
  refine ⟨?_, ?_, ?_, ?_⟩
  · intro j v hv
    refine ⟨decode_encode_messageContent v, ?_⟩
    rintro w rfl
    rw [decode_encode_messageContent w] at hv
    obtain rfl := Option.some.inj hv
    rfl
  · intro j c hc
    refine ⟨decode_encode_contentType c, ?_⟩
    rintro w rfl
    rw [decode_encode_contentType w] at hc
    obtain rfl := Option.some.inj hc
    rfl
  · intro j t ht
    unfold decodeContentType
    rw [ht]
  · intro j i h1 h2
    unfold decodeContentType
    rw [h1, h2]
    rfl

/-- C7: `get_message_completed` either fully succeeds or fully fails — a
non-200 response yields the api error carrying the body text, a 200
response with an unparsable or mismatching body yields the parse error, a
200 response whose body deserializes yields exactly that typed value, and
a success is only ever produced from a 200 response whose body fully
deserialized. -/
theorem c7_response_handling (resp : HttpResponse) :
    (resp.status ≠ 200 →
        get_message_completed_response resp =
          .error (ClientError.apiError ("Error: " ++ resp.text))) ∧
    (resp.status = 200 → resp.json = none →
        get_message_completed_response resp = .error ClientError.parseError) ∧
    (∀ j, resp.status = 200 → resp.json = some j →
        (decodeResponseBodyAnthropic j = none →
          get_message_completed_response resp = .error ClientError.parseError) ∧
        (∀ b, decodeResponseBodyAnthropic j = some b →
          get_message_completed_response resp = .ok b)) ∧
    (∀ b, get_message_completed_response resp = .ok b →
        resp.status = 200 ∧
        ∃ j, resp.json = some j ∧ decodeResponseBodyAnthropic j = some b) := by
  refine ⟨?_, ?_, ?_, ?_⟩
  · intro hs
    unfold get_message_completed_response
    rw [if_neg hs]
  · intro hs hj
    unfold get_message_completed_response
    rw [if_pos hs, hj]
  · intro j hs hj
    constructor
    · intro hd
      unfold get_message_completed_response
      rw [if_pos hs, hj]
      dsimp only
      rw [hd]
    · intro b hb
      unfold get_message_completed_response
      rw [if_pos hs, hj]
      dsimp only
      rw [hb]
  · intro b hb
    unfold get_message_completed_response at hb
    by_cases hs : resp.status = 200
    · rw [if_pos hs] at hb
      cases hj : resp.json with
      | none => rw [hj] at hb; cases hb
      | some j =>
          rw [hj] at hb
          dsimp only at hb
          cases hd : decodeResponseBodyAnthropic j with
          | none => rw [hd] at hb; cases hb
          | some b' =>
              rw [hd] at hb
              obtain rfl := Except.ok.inj hb
              exact ⟨hs, j, rfl, hd⟩
    · rw [if_neg hs] at hb
      cases hb

end AnthropicRs
